import Mathlib

/-!
Shallow embedding of `src/user_manager.py` (class `UserManager`) from the
SOLID-SRP repository, together with the pure helpers it uses
(`_is_valid_email`, `_is_valid_password`, `_encrypt_password`).
Python strings are modelled as Lean `String` (sequences of unicode code
points, matching Python `str`); `datetime.now()` is modelled as a
monotonically increasing tick counter threaded through the state;
Python dicts are modelled as insertion-ordered association lists.
-/

namespace SolidSRP

/-! ### Character classes of the regular expressions in the source

The regex character classes compare unicode code points; we model a char
class as a boolean predicate on `Char.toNat`. -/

/-- The class `[a-zA-Z0-9]` (also used for `\d`-style digit membership via
`isDigitChar` below; the source's `\d` also accepts non-ASCII decimal
digits, a case no claim exercises — the model fixes the ASCII reading). -/
def isAlnumChar (c : Char) : Bool :=
  (48 ≤ c.toNat && c.toNat ≤ 57) || (65 ≤ c.toNat && c.toNat ≤ 90) ||
    (97 ≤ c.toNat && c.toNat ≤ 122)

/-- The class `[a-zA-Z]`. -/
def isAlphaChar (c : Char) : Bool :=
  (65 ≤ c.toNat && c.toNat ≤ 90) || (97 ≤ c.toNat && c.toNat ≤ 122)

/-- The class `[0-9]`, i.e. the ASCII reading of `\d`. -/
def isDigitChar (c : Char) : Bool := 48 ≤ c.toNat && c.toNat ≤ 57

/-- The class `[A-Z]`. -/
def isUpperChar (c : Char) : Bool := 65 ≤ c.toNat && c.toNat ≤ 90

/-- The class `[a-z]`. -/
def isLowerChar (c : Char) : Bool := 97 ≤ c.toNat && c.toNat ≤ 122

/-- The class `[a-zA-Z0-9._+%-]` (local-part interior characters). -/
def isLocalChar (c : Char) : Bool :=
  isAlnumChar c || c = '.' || c = '_' || c = '+' || c = '%' || c = '-'

/-- The class `[a-zA-Z0-9.-]` (domain interior characters). -/
def isDomainMidChar (c : Char) : Bool :=
  isAlnumChar c || c = '.' || c = '-'

/-! ### The email regex of `UserManager._is_valid_email`

Pattern (also char-for-char the pattern of
`src/solution/refactored_example.py` `EmailValidator.is_valid`):

  `^[a-zA-Z0-9][a-zA-Z0-9._+%-]*[a-zA-Z0-9]@[a-zA-Z0-9]([a-zA-Z0-9.-]*[a-zA-Z0-9])?\.[a-zA-Z]{2,}$`

Since `[a-zA-Z0-9] ⊆ [a-zA-Z0-9._+%-]`, the sub-language
`[a-zA-Z0-9][a-zA-Z0-9._+%-]*[a-zA-Z0-9]` is exactly: length ≥ 2, first and
last characters alphanumeric, interior characters in the local class; we
match it by direct structural recursion.  No character class of the pattern
contains `@`, so a match must align the literal `@` with the first `@` of
the subject. -/

/-- Matches `[a-zA-Z0-9._+%-]*[a-zA-Z0-9]` (a possibly empty run of local
characters followed by one alphanumeric). -/
def matchLocalTail : List Char → Bool
  | [] => false
  | [c] => isAlnumChar c
  | c :: rest => isLocalChar c && matchLocalTail rest

/-- Matches `[a-zA-Z0-9][a-zA-Z0-9._+%-]*[a-zA-Z0-9]` (the local part). -/
def matchLocal : List Char → Bool
  | [] => false
  | c :: rest => isAlnumChar c && matchLocalTail rest

/-- Matches `[a-zA-Z0-9.-]*[a-zA-Z0-9]`. -/
def matchDomTail : List Char → Bool
  | [] => false
  | [c] => isAlnumChar c
  | c :: rest => isDomainMidChar c && matchDomTail rest

/-- Matches `[a-zA-Z0-9]([a-zA-Z0-9.-]*[a-zA-Z0-9])?` (the part of the
domain before the final dot-extension). -/
def matchDomPre : List Char → Bool
  | [] => false
  | [c] => isAlnumChar c
  | c :: rest => isAlnumChar c && matchDomTail rest

/-- Matches `[a-zA-Z]{2,}` anchored to the end (the dot-extension). -/
def matchExt (l : List Char) : Bool :=
  decide (2 ≤ l.length) && l.all isAlphaChar

/-- Matches `[a-zA-Z0-9]([a-zA-Z0-9.-]*[a-zA-Z0-9])?\.[a-zA-Z]{2,}`
anchored to the end: some split of the domain at a literal dot, the part
before matching `matchDomPre`, the part after matching `matchExt`
(backtracking regex semantics = existence of a split). -/
def matchDomain (d : List Char) : Bool :=
  (List.range d.length).any (fun i =>
    (d.getD i ' ' = '.') && matchDomPre (d.take i) && matchExt (d.drop (i + 1)))

/-- The whole pattern anchored at both ends.  The `@` of a match is
necessarily the subject's first `@` (no char class contains `@`). -/
def regexFullMatch (cs : List Char) : Bool :=
  match cs.dropWhile (fun c => !(c = '@')) with
  | _ :: d => matchLocal (cs.takeWhile (fun c => !(c = '@'))) && matchDomain d
  | [] => false

/-- Python `re.match(p, s)` with `p` ending in `$` (no MULTILINE): the
pattern body must consume the whole string, or the whole string minus one
trailing newline. -/
def reMatchEmailPattern (cs : List Char) : Bool :=
  regexFullMatch cs ||
    (cs.getLast? = some '\n' && regexFullMatch cs.dropLast)

/-- Python `'..' in email` (substring test). -/
def hasDoubleDot : List Char → Bool
  | c1 :: c2 :: rest => (c1 = '.' && c2 = '.') || hasDoubleDot (c2 :: rest)
  | _ => false

/-- `UserManager._is_valid_email` (src/user_manager.py lines 126-133):
reject on a `".."` substring, else match the pattern. -/
def is_valid_email (email : String) : Bool :=
  if hasDoubleDot email.data then false
  else reMatchEmailPattern email.data

/-- `UserManager._is_valid_password` (src/user_manager.py lines 135-145):
length ≥ 8, and `re.search` finds an `[A-Z]`, an `[a-z]` and a `\d`
character somewhere in the string. -/
def is_valid_password (password : String) : Bool :=
  decide (8 ≤ password.length) && password.data.any isUpperChar &&
    password.data.any isLowerChar && password.data.any isDigitChar

/-! ### SHA-256 (`hashlib.sha256(password.encode()).hexdigest()`)

`UserManager._encrypt_password` digests the UTF-8 encoding of the password
with SHA-256 and renders the 256-bit result as 64 lowercase hex characters.
We embed SHA-256 (FIPS 180-4) directly over `Nat`, with 32-bit words
represented as naturals reduced mod 2^32. -/

/-- Reduce to a 32-bit word. -/
def w32 (n : Nat) : Nat := n % 4294967296

/-- 32-bit bitwise complement (argument first reduced to 32 bits). -/
def wnot (a : Nat) : Nat := 4294967295 - a % 4294967296

/-- 32-bit rotate right by `k` (for `0 < k < 32`). -/
def rotr (a k : Nat) : Nat :=
  ((a % 4294967296) >>> k) ||| (((a % 4294967296) <<< (32 - k)) % 4294967296)

/-- SHA-256 Σ0. -/
def bsig0 (x : Nat) : Nat := rotr x 2 ^^^ rotr x 13 ^^^ rotr x 22

/-- SHA-256 Σ1. -/
def bsig1 (x : Nat) : Nat := rotr x 6 ^^^ rotr x 11 ^^^ rotr x 25

/-- SHA-256 σ0. -/
def ssig0 (x : Nat) : Nat := rotr x 7 ^^^ rotr x 18 ^^^ ((x % 4294967296) >>> 3)

/-- SHA-256 σ1. -/
def ssig1 (x : Nat) : Nat := rotr x 17 ^^^ rotr x 19 ^^^ ((x % 4294967296) >>> 10)

/-- The 64 SHA-256 round constants (fractional cube roots of the first 64
primes). -/
def shaK : List Nat :=
  [1116352408, 1899447441, 3049323471, 3921009573, 961987163, 1508970993,
   2453635748, 2870763221, 3624381080, 310598401, 607225278, 1426881987,
   1925078388, 2162078206, 2614888103, 3248222580, 3835390401, 4022224774,
   264347078, 604807628, 770255983, 1249150122, 1555081692, 1996064986,
   2554220882, 2821834349, 2952996808, 3210313671, 3336571891, 3584528711,
   113926993, 338241895, 666307205, 773529912, 1294757372, 1396182291,
   1695183700, 1986661051, 2177026350, 2456956037, 2730485921, 2820302411,
   3259730800, 3345764771, 3516065817, 3600352804, 4094571909, 275423344,
   430227734, 506948616, 659060556, 883997877, 958139571, 1322822218,
   1537002063, 1747873779, 1955562222, 2024104815, 2227730452, 2361852424,
   2428436474, 2756734187, 3204031479, 3329325298]

/-- The eight 32-bit working variables / hash words. -/
structure Hash8 where
  (a b c d e f g h : Nat)
deriving Repr, DecidableEq

/-- The SHA-256 initial hash value (fractional square roots of the first 8
primes). -/
def shaH0 : Hash8 :=
  ⟨1779033703, 3144134277, 1013904242, 2773480762, 1359893119, 2600822924,
   528734635, 1541459225⟩

/-- One compression round: `kw` is the pair (round constant, schedule word). -/
def shaRound (s : Hash8) (kw : Nat × Nat) : Hash8 :=
  let ch := (s.e &&& s.f) ^^^ (wnot s.e &&& s.g)
  let t1 := (s.h + bsig1 s.e + ch + kw.1 + kw.2) % 4294967296
  let maj := (s.a &&& s.b) ^^^ (s.a &&& s.c) ^^^ (s.b &&& s.c)
  let t2 := (bsig0 s.a + maj) % 4294967296
  ⟨(t1 + t2) % 4294967296, s.a, s.b, s.c, (s.d + t1) % 4294967296, s.e, s.f, s.g⟩

/-- Message-schedule extension step on the reversed (newest-first) word
list: `w[i] = w[i-16] + σ0(w[i-15]) + w[i-7] + σ1(w[i-2]) mod 2^32`. -/
def schedStep (ws : List Nat) : List Nat :=
  ((ws.getD 15 0 + ssig0 (ws.getD 14 0) + ws.getD 6 0 + ssig1 (ws.getD 1 0)) %
      4294967296) :: ws

/-- Extend 16 message words to the full 64-word schedule. -/
def schedule (w16 : List Nat) : List Nat :=
  ((List.range 48).foldl (fun ws _ => schedStep ws) w16.reverse).reverse

/-- Big-endian 4-byte groups to 32-bit words. -/
def bytesToWords : List Nat → List Nat
  | b0 :: b1 :: b2 :: b3 :: rest =>
    (b0 * 16777216 + b1 * 65536 + b2 * 256 + b3) :: bytesToWords rest
  | _ => []

/-- Compress one 64-byte chunk into the running hash. -/
def compress (s : Hash8) (chunk : List Nat) : Hash8 :=
  let ws := schedule (bytesToWords chunk)
  let t := (shaK.zip ws).foldl shaRound s
  ⟨(s.a + t.a) % 4294967296, (s.b + t.b) % 4294967296, (s.c + t.c) % 4294967296,
   (s.d + t.d) % 4294967296, (s.e + t.e) % 4294967296, (s.f + t.f) % 4294967296,
   (s.g + t.g) % 4294967296, (s.h + t.h) % 4294967296⟩

/-- 64-bit big-endian byte rendering of the message bit length. -/
def lenBytesBE (n : Nat) : List Nat :=
  [n / 72057594037927936 % 256, n / 281474976710656 % 256,
   n / 1099511627776 % 256, n / 4294967296 % 256, n / 16777216 % 256,
   n / 65536 % 256, n / 256 % 256, n % 256]

/-- SHA-256 padding: append `0x80`, zero bytes to 56 mod 64, then the
big-endian 64-bit bit length. -/
def shaPad (msg : List Nat) : List Nat :=
  let padLen := (120 - (msg.length + 1) % 64) % 64
  msg ++ [128] ++ List.replicate padLen 0 ++ lenBytesBE (8 * msg.length)

/-- Split the padded message into 64-byte chunks. -/
def chunks64 (l : List Nat) : List (List Nat) :=
  if h : l = [] then [] else l.take 64 :: chunks64 (l.drop 64)
termination_by l.length
decreasing_by
  simp only [List.length_drop]
  have := List.length_pos.mpr h
  omega

/-- SHA-256 of a byte sequence. -/
def sha256run (msg : List Nat) : Hash8 :=
  (chunks64 (shaPad msg)).foldl compress shaH0

/-- UTF-8 encoding of a string (Python `str.encode()`), as a byte list. -/
def utf8Bytes (s : String) : List Nat :=
  s.data.foldr (fun c acc => (String.utf8EncodeChar c).map UInt8.toNat ++ acc) []

/-- Lowercase hex digit for `n < 16` (`'0'`-`'9'`, `'a'`-`'f'`). -/
def hexDigitChar (n : Nat) : Char :=
  if n < 10 then Char.ofNat (48 + n) else Char.ofNat (87 + n)

/-- Big-endian 8-hex-character rendering of a 32-bit word. -/
def wordHex (w : Nat) : List Char :=
  [hexDigitChar (w / 268435456 % 16), hexDigitChar (w / 16777216 % 16),
   hexDigitChar (w / 1048576 % 16), hexDigitChar (w / 65536 % 16),
   hexDigitChar (w / 4096 % 16), hexDigitChar (w / 256 % 16),
   hexDigitChar (w / 16 % 16), hexDigitChar (w % 16)]

/-- `hexdigest()`: the 8 hash words rendered big-endian as 64 lowercase hex
characters. -/
def hexOfHash (d : Hash8) : List Char :=
  wordHex d.a ++ wordHex d.b ++ wordHex d.c ++ wordHex d.d ++ wordHex d.e ++
    wordHex d.f ++ wordHex d.g ++ wordHex d.h

/-- `UserManager._encrypt_password` (src/user_manager.py lines 147-150):
`hashlib.sha256(password.encode()).hexdigest()`. -/
def encrypt_password (password : String) : String :=
  ⟨hexOfHash (sha256run (utf8Bytes password))⟩

/-! ### Python value and dict model

`UserManager` stores each user as a Python dict with string keys; the
values occurring in this API are strings and booleans.  Python dicts are
insertion-ordered: assigning an existing key replaces its value in place,
assigning a fresh key appends it. -/

/-- A Python value as used by `UserManager` records (strings, booleans). -/
inductive PyVal where
  | str : String → PyVal
  | bool : Bool → PyVal
deriving Repr, DecidableEq

/-- Python `str(v)` as used in f-string interpolation. -/
def pyStr : PyVal → String
  | .str s => s
  | .bool true => "True"
  | .bool false => "False"

/-- Python `k in d` for a string-keyed insertion-ordered dict. -/
def alistHas {α : Type} (d : List (String × α)) (k : String) : Bool :=
  d.any (fun p => p.1 = k)

/-- Python `d.get(k)` / `d[k]` (first binding wins; dicts built by this API
have unique keys). -/
def alistGet {α : Type} : List (String × α) → String → Option α
  | [], _ => none
  | p :: rest, k => if p.1 = k then some p.2 else alistGet rest k

/-- Python `d[k] = v`: replace in place if the key exists, else append. -/
def alistSet {α : Type} (d : List (String × α)) (k : String) (v : α) :
    List (String × α) :=
  if alistHas d k then d.map (fun p => if p.1 = k then (k, v) else p)
  else d ++ [(k, v)]

/-- Python `d.update(kw)`: assign every binding of `kw` in order. -/
def alistUpdate {α : Type} (d kw : List (String × α)) : List (String × α) :=
  kw.foldl (fun acc p => alistSet acc p.1 p.2) d

/-- Python `del d[k]` (bindings are unique in the dicts this API builds). -/
def alistDel {α : Type} (d : List (String × α)) (k : String) :
    List (String × α) :=
  d.filter (fun p => !(p.1 = k))

/-- A user record: a Python dict with string keys, insertion-ordered. -/
abbrev PyDict := List (String × PyVal)

/-- Python `k in d` on a record. -/
abbrev dictHas : PyDict → String → Bool := alistHas

/-- Python `d[k]` on a record. -/
abbrev dictGet : PyDict → String → Option PyVal := alistGet

/-- Python `d[k] = v` on a record. -/
abbrev dictSet : PyDict → String → PyVal → PyDict := alistSet

/-- Python `d.update(kwargs)` on a record. -/
abbrev dictUpdate : PyDict → PyDict → PyDict := alistUpdate

/-- The `self.users` dict: identifier → record. -/
abbrev UsersDict := List (String × PyDict)

/-- Python `username in self.users`. -/
abbrev usersMem : UsersDict → String → Bool := alistHas

/-- Python `self.users.get(username)` / `self.users[username]`. -/
abbrev usersGet : UsersDict → String → Option PyDict := alistGet

/-- Python `self.users[username] = d`. -/
abbrev usersSet : UsersDict → String → PyDict → UsersDict := alistSet

/-- Python `del self.users[username]`. -/
abbrev usersDel : UsersDict → String → UsersDict := alistDel

/-! ### The manager state

`datetime.now()` is modelled as a tick counter `now` threaded through the
state: each call to `now()` yields the current tick (its `isoformat()`
rendered as `toString`) and increments the counter, so timestamps are
strictly increasing like wall-clock readings. -/

/-- One entry of `self.log_entries`: `{timestamp, message}`. -/
structure AuditEntry where
  timestamp : Nat
  message : String
deriving Repr, DecidableEq

/-- The mutable state of a `UserManager` instance. -/
structure ManagerState where
  users : UsersDict
  log_entries : List AuditEntry
  now : Nat
deriving Repr, DecidableEq

/-- The state built by `UserManager.__init__`. -/
def initState : ManagerState := ⟨[], [], 0⟩

/-- `UserManager._log`: append `{timestamp: now, message}` to
`self.log_entries` (consuming one clock tick). -/
def log (message : String) (s : ManagerState) : ManagerState :=
  { users := s.users, log_entries := s.log_entries ++ [⟨s.now, message⟩],
    now := s.now + 1 }

/-- `UserManager._send_welcome_email`: simulated by logging the message. -/
def send_welcome_email (email username : String) (s : ManagerState) : ManagerState :=
  log ("Welcome email sent to " ++ email ++ ": Welcome " ++ username ++
    "! Your account has been created successfully.") s

/-- `UserManager._send_goodbye_email`: simulated by logging the message. -/
def send_goodbye_email (email username : String) (s : ManagerState) : ManagerState :=
  log ("Goodbye email sent to " ++ email ++ ": Goodbye " ++ username ++
    "! Your account has been deleted.") s

/-- The `ValueError` message raised for a weak password (identical in
`create_user` and `update_user`). -/
def weakPasswordMsg : String :=
  "Password must be at least 8 characters with uppercase, lowercase, and number"

/-- Marker for a Python `TypeError`: passing a non-string where
`_is_valid_email` / `_is_valid_password` iterate over a string raises
`TypeError` before anything is logged or mutated. -/
def typeErrorMsg : String := "TypeError"

/-- `UserManager.create_user` (src/user_manager.py lines 35-70).  A raised
`ValueError` is modelled as `Except.error` carrying the exact message. -/
def create_user (s : ManagerState) (username email password : String) :
    Except String PyDict × ManagerState :=
  if !is_valid_email email then
    (.error "Invalid email format",
      log ("Failed to create user " ++ username ++ ": Invalid email") s)
  else if !is_valid_password password then
    (.error weakPasswordMsg,
      log ("Failed to create user " ++ username ++ ": Weak password") s)
  else if usersMem s.users username then
    (.error "User already exists",
      log ("Failed to create user " ++ username ++ ": User already exists") s)
  else
    let encrypted_password := encrypt_password password
    let user_data : PyDict :=
      [("username", .str username), ("email", .str email),
       ("password", .str encrypted_password),
       ("created_at", .str (toString s.now)), ("is_active", .bool true)]
    let s1 : ManagerState := { users := usersSet s.users username user_data,
                               log_entries := s.log_entries, now := s.now + 1 }
    let s2 := log ("User " ++ username ++ " created successfully") s1
    (.ok user_data, send_welcome_email email username s2)

/-- `UserManager.get_user` (lines 72-79): returns `None` on absence (the
source logs before returning the record; logging does not touch
`self.users`, so reading the record from `s` is equivalent). -/
def get_user (s : ManagerState) (username : String) : Option PyDict × ManagerState :=
  if !usersMem s.users username then
    (none, log ("Failed to retrieve user " ++ username ++ ": User not found") s)
  else
    (usersGet s.users username, log ("User " ++ username ++ " retrieved successfully") s)

/-- Final part of `update_user`: `self.users[username].update(kwargs)`
(the record dict is mutated in place, modelled by rebinding the merged
record), log success, return the record. -/
def update_apply (s : ManagerState) (username : String) (kwargs : PyDict) :
    Except String PyDict × ManagerState :=
  let updated := dictUpdate ((usersGet s.users username).getD []) kwargs
  let s1 : ManagerState := { users := usersSet s.users username updated,
                             log_entries := s.log_entries, now := s.now }
  (.ok updated, log ("User " ++ username ++ " updated successfully") s1)

/-- The `'password' in kwargs` block of `update_user`: validate, then
`kwargs['password'] = self._encrypt_password(kwargs['password'])` (an
in-place replacement inside `kwargs`). -/
def update_password_step (s : ManagerState) (username : String) (kwargs : PyDict) :
    Except String PyDict × ManagerState :=
  match dictGet kwargs "password" with
  | none => update_apply s username kwargs
  | some (.str p) =>
    if !is_valid_password p then
      (.error weakPasswordMsg,
        log ("Failed to update user " ++ username ++ ": Weak password") s)
    else update_apply s username (dictSet kwargs "password" (.str (encrypt_password p)))
  | some (.bool _) => (.error typeErrorMsg, s)

/-- `UserManager.update_user` (lines 81-104): not-found check, optional
email validation, optional password validation and digest replacement,
then an unrestricted dict merge of `kwargs` into the stored record. -/
def update_user (s : ManagerState) (username : String) (kwargs : PyDict) :
    Except String PyDict × ManagerState :=
  if !usersMem s.users username then
    (.error "User not found",
      log ("Failed to update user " ++ username ++ ": User not found") s)
  else
    match dictGet kwargs "email" with
    | none => update_password_step s username kwargs
    | some (.str e) =>
      if !is_valid_email e then
        (.error "Invalid email format",
          log ("Failed to update user " ++ username ++ ": Invalid email") s)
      else update_password_step s username kwargs
    | some (.bool _) => (.error typeErrorMsg, s)

/-- `UserManager.delete_user` (lines 106-119).  `self.users[username]['email']`
is read before deletion; a record without an `email` key would raise
`KeyError` in Python, which is unreachable through this API (every record
is created with an `email` key and `update_user` can only rebind it), so
the model reads it with a default. -/
def delete_user (s : ManagerState) (username : String) :
    Except String Bool × ManagerState :=
  if !usersMem s.users username then
    (.error "User not found",
      log ("Failed to delete user " ++ username ++ ": User not found") s)
  else
    let email := pyStr ((dictGet ((usersGet s.users username).getD []) "email").getD (.str ""))
    let s1 : ManagerState := { users := usersDel s.users username,
                               log_entries := s.log_entries, now := s.now }
    let s2 := log ("User " ++ username ++ " deleted successfully") s1
    (.ok true, send_goodbye_email email username s2)

/-- `UserManager.list_users` (lines 121-124): log, then
`list(self.users.values())` (logging does not touch `self.users`). -/
def list_users (s : ManagerState) : List PyDict × ManagerState :=
  (s.users.map Prod.snd, log "User list retrieved" s)

/-- `UserManager.get_logs` (lines 175-177) executes `return
self.log_entries`: it hands back the very list object the manager keeps
appending to, NOT a copy.  The returned value is modelled as a reference
to that attribute's heap location. -/
inductive LogListRef where
  | theLogEntries
deriving Repr, DecidableEq

/-- `UserManager.get_logs`. -/
def get_logs (_s : ManagerState) : LogListRef := .theLogEntries

/-- Observing the list object behind a returned reference when the manager
is in state `s` (Python `list.append` mutates the object in place, so the
object's contents at any time are the manager's current `log_entries`). -/
def readLogList (_r : LogListRef) (s : ManagerState) : List AuditEntry :=
  s.log_entries

/-! ### Public operations as a step relation -/

/-- One public operation call on the manager. -/
inductive Op where
  | createOp (username email password : String)
  | getOp (username : String)
  | updateOp (username : String) (kwargs : PyDict)
  | deleteOp (username : String)
  | listOp

/-- The state after one public operation call. -/
def applyOp (s : ManagerState) : Op → ManagerState
  | .createOp u e p => (create_user s u e p).2
  | .getOp u => (get_user s u).2
  | .updateOp u kw => (update_user s u kw).2
  | .deleteOp u => (delete_user s u).2
  | .listOp => (list_users s).2

/-- An operation whose arguments are well-typed for the Python code: an
`update` whose kwargs carry a non-string under `email` or `password` makes
the source raise `TypeError` inside the validator (before any audit
entry); all other calls are well-typed. -/
def wellTypedOp : Op → Bool
  | .updateOp _ kw =>
    (match dictGet kw "email" with
     | some (.bool _) => false
     | _ => true) &&
    (match dictGet kw "password" with
     | some (.bool _) => false
     | _ => true)
  | _ => true

/-- Operations that additionally log a simulated notification email:
a succeeding `create` and a succeeding `delete`. -/
def opNotifies (s : ManagerState) : Op → Bool
  | .createOp u e p => is_valid_email e && is_valid_password p && !usersMem s.users u
  | .deleteOp u => usersMem s.users u
  | _ => false

/-! ### Helper lemmas about the dict model -/

theorem alistGet_isSome {α : Type} (us : List (String × α)) (u : String) :
    (alistGet us u).isSome = alistHas us u := by
  induction us with
  | nil => rfl
  | cons p rest ih =>
    simp only [alistGet, alistHas, List.any_cons]
    by_cases hp : p.1 = u
    · simp [hp]
    · simp only [hp, if_false, decide_eq_true_eq]
      simp only [alistHas] at ih
      simp [ih, hp]

theorem alistGet_eq_none_of_not_mem {α : Type} {us : List (String × α)}
    {u : String} (h : alistHas us u = false) : alistGet us u = none := by
  have := alistGet_isSome us u
  rw [h] at this
  exact Option.not_isSome_iff_eq_none.mp (by simp [this])

theorem alistGet_exists_of_mem {α : Type} {us : List (String × α)}
    {u : String} (h : alistHas us u = true) : ∃ d, alistGet us u = some d := by
  have := alistGet_isSome us u
  rw [h] at this
  exact Option.isSome_iff_exists.mp this

theorem alistGet_map_replace {α : Type} (us : List (String × α)) (u : String)
    (d : α) (hmem : alistHas us u = true) :
    alistGet (us.map (fun p => if p.1 = u then (u, d) else p)) u = some d := by
  induction us with
  | nil => simp [alistHas] at hmem
  | cons p rest ih =>
    by_cases hp : p.1 = u
    · simp [alistGet, hp]
    · simp only [alistHas, List.any_cons, decide_eq_true_eq, hp, false_or] at hmem
      simp only [List.map_cons, hp, if_false]
      simpa [alistGet, hp] using ih hmem

theorem alistGet_append_single {α : Type} (us : List (String × α))
    (u : String) (d : α) (hnone : alistGet us u = none) :
    alistGet (us ++ [(u, d)]) u = some d := by
  induction us with
  | nil => simp [alistGet]
  | cons p rest ih =>
    simp only [alistGet] at hnone ⊢
    by_cases hp : p.1 = u
    · simp [hp] at hnone
    · simp only [hp, if_false] at hnone ⊢
      exact ih hnone

theorem alistGet_alistSet_self {α : Type} (us : List (String × α))
    (u : String) (d : α) : alistGet (alistSet us u d) u = some d := by
  unfold alistSet
  by_cases hmem : alistHas us u
  · simp only [hmem, if_true]
    exact alistGet_map_replace us u d hmem
  · simp only [hmem, if_false]
    exact alistGet_append_single us u d
      (alistGet_eq_none_of_not_mem (by simpa using hmem))

theorem alistHas_alistSet_self {α : Type} (us : List (String × α))
    (u : String) (d : α) : alistHas (alistSet us u d) u = true := by
  rw [← alistGet_isSome, alistGet_alistSet_self]
  rfl

theorem alistGet_map_replace_ne {α : Type} (us : List (String × α))
    (u : String) (d : α) (k : String) (hne : ¬(k = u)) :
    alistGet (us.map (fun p => if p.1 = u then (u, d) else p)) k =
      alistGet us k := by
  induction us with
  | nil => rfl
  | cons p rest ih =>
    by_cases hp : p.1 = u
    · have hpk : ¬(p.1 = k) := fun hh => hne ((hh.symm.trans hp).symm).symm
      have huk : ¬(u = k) := fun hh => hne hh.symm
      simp [alistGet, hp, hpk, huk, ih]
    · simp only [List.map_cons, hp, if_false]
      by_cases hpk : p.1 = k
      · simp [alistGet, hpk]
      · simp [alistGet, hpk, ih]

theorem alistGet_append_single_ne {α : Type} (us : List (String × α))
    (u : String) (d : α) (k : String) (hne : ¬(k = u)) :
    alistGet (us ++ [(u, d)]) k = alistGet us k := by
  induction us with
  | nil =>
    have huk : ¬(u = k) := fun hh => hne hh.symm
    simp [alistGet, huk]
  | cons p rest ih =>
    simp only [List.cons_append, alistGet]
    by_cases hp : p.1 = k
    · simp [hp]
    · simp [hp, ih]

theorem alistGet_alistSet_ne {α : Type} (us : List (String × α))
    (u : String) (d : α) (k : String) (hne : ¬(k = u)) :
    alistGet (alistSet us u d) k = alistGet us k := by
  unfold alistSet
  by_cases hmem : alistHas us u
  · simp only [hmem, if_true]
    exact alistGet_map_replace_ne us u d k hne
  · simp only [hmem, if_false]
    exact alistGet_append_single_ne us u d k hne

theorem alistGet_alistDel_self {α : Type} (us : List (String × α))
    (u : String) : alistGet (alistDel us u) u = none := by
  induction us with
  | nil => rfl
  | cons p rest ih =>
    unfold alistDel at ih ⊢
    by_cases hp : p.1 = u
    · simpa [List.filter, hp] using ih
    · simpa [List.filter, hp, alistGet] using ih

theorem alistHas_alistDel_self {α : Type} (us : List (String × α))
    (u : String) : alistHas (alistDel us u) u = false := by
  rw [← alistGet_isSome, alistGet_alistDel_self]
  rfl

theorem alist_map_replace_id {α : Type} (us : List (String × α))
    (u : String) (d : α) :
    alistGet us u = some d → (us.map Prod.fst).Nodup →
    us.map (fun p => if p.1 = u then (u, d) else p) = us := by
  induction us with
  | nil =>
    intro hget _
    simp [alistGet] at hget
  | cons p rest ih =>
    intro hget hnd
    obtain ⟨k, v⟩ := p
    simp only [List.map_cons, List.nodup_cons] at hnd
    by_cases hp : k = u
    · subst hp
      simp only [alistGet, if_pos, Option.some.injEq] at hget
      subst hget
      simp only [List.map_cons, if_pos, List.cons.injEq, true_and]
      have hq : ∀ q ∈ rest, (if q.1 = k then (k, v) else q) = q := by
        intro q hqmem
        have hne : ¬(q.1 = k) := fun hqu =>
          hnd.1 (hqu ▸ List.mem_map_of_mem Prod.fst hqmem)
        simp [hne]
      have := List.map_congr_left hq
      simpa using this
    · simp only [alistGet, hp, if_false] at hget
      simp only [List.map_cons]
      have hkv : (if (k, v).1 = u then (u, d) else (k, v)) = (k, v) := by simp [hp]
      rw [hkv, ih hget hnd.2]

theorem alistSet_eq_self {α : Type} {us : List (String × α)} {u : String}
    {d : α} (hget : alistGet us u = some d) (hnd : (us.map Prod.fst).Nodup) :
    alistSet us u d = us := by
  have hmem : alistHas us u = true := by
    rw [← alistGet_isSome, hget]; rfl
  unfold alistSet
  simp only [hmem, if_true]
  exact alist_map_replace_id us u d hget hnd

theorem alistGet_eq_none_of_not_mem_keys {α : Type} {us : List (String × α)}
    {u : String} (h : ¬ u ∈ us.map Prod.fst) : alistGet us u = none := by
  apply alistGet_eq_none_of_not_mem
  unfold alistHas
  rw [List.any_eq_false]
  intro p hp
  simp only [decide_eq_true_eq]
  intro hpu
  exact h (hpu ▸ List.mem_map_of_mem Prod.fst hp)

theorem alistGet_alistUpdate {α : Type} (kw : List (String × α)) :
    ∀ (d : List (String × α)) (k : String), (kw.map Prod.fst).Nodup →
    alistGet (alistUpdate d kw) k =
      (match alistGet kw k with
       | some v => some v
       | none => alistGet d k) := by
  induction kw with
  | nil =>
    intro d k _
    rfl
  | cons p kw ih =>
    intro d k hnd
    obtain ⟨k0, v0⟩ := p
    simp only [List.map_cons, List.nodup_cons] at hnd
    show alistGet (alistUpdate (alistSet d k0 v0) kw) k = _
    rw [ih _ k hnd.2]
    by_cases hk : k0 = k
    · subst hk
      have hnone : alistGet kw k0 = none :=
        alistGet_eq_none_of_not_mem_keys hnd.1
      simp [alistGet, hnone, alistGet_alistSet_self]
    · have hkk : ¬(k = k0) := fun hh => hk hh.symm
      simp only [alistGet, hk, if_false]
      cases hkw : alistGet kw k with
      | some v => simp
      | none => simp [alistGet_alistSet_ne d k0 v0 k hkk]

/-! ### State-level helper lemmas -/

theorem log_users (m : String) (s : ManagerState) : (log m s).users = s.users := rfl

theorem log_entries_eq (m : String) (s : ManagerState) :
    (log m s).log_entries = s.log_entries ++ [⟨s.now, m⟩] := rfl

theorem log_length (m : String) (s : ManagerState) :
    (log m s).log_entries.length = s.log_entries.length + 1 := by
  simp [log]

theorem send_welcome_email_users (e u : String) (s : ManagerState) :
    (send_welcome_email e u s).users = s.users := rfl

theorem send_goodbye_email_users (e u : String) (s : ManagerState) :
    (send_goodbye_email e u s).users = s.users := rfl

/-- `create_user` branch: invalid email. -/
theorem create_user_invalid_email (s : ManagerState) (u e p : String)
    (he : is_valid_email e = false) :
    create_user s u e p =
      (.error "Invalid email format",
        log ("Failed to create user " ++ u ++ ": Invalid email") s) := by
  simp [create_user, he]

/-- `create_user` branch: weak password. -/
theorem create_user_weak_password (s : ManagerState) (u e p : String)
    (he : is_valid_email e = true) (hp : is_valid_password p = false) :
    create_user s u e p =
      (.error weakPasswordMsg,
        log ("Failed to create user " ++ u ++ ": Weak password") s) := by
  simp [create_user, he, hp]

/-- `create_user` branch: identifier already present. -/
theorem create_user_already_exists (s : ManagerState) (u e p : String)
    (he : is_valid_email e = true) (hp : is_valid_password p = true)
    (hm : usersMem s.users u = true) :
    create_user s u e p =
      (.error "User already exists",
        log ("Failed to create user " ++ u ++ ": User already exists") s) := by
  simp [create_user, he, hp, hm]

/-- In the success branch, `create_user` leaves the manager with
`usersSet s.users username user_data` and two more log entries. -/
theorem create_user_users (s : ManagerState) (username email password : String)
    (he : is_valid_email email = true) (hp : is_valid_password password = true)
    (hm : usersMem s.users username = false) :
    (create_user s username email password).2.users =
      usersSet s.users username
        [("username", .str username), ("email", .str email),
         ("password", .str (encrypt_password password)),
         ("created_at", .str (toString s.now)), ("is_active", .bool true)] := by
  simp [create_user, he, hp, hm, send_welcome_email, log]

/-! ### C3 -/

/-- C3: whenever `create_user` fails (invalid email, weak password or
already-present identifier), the user store is not mutated: the users dict
afterwards equals the users dict before, and in particular a fresh
identifier still has no record. -/
theorem create_failure_no_mutation (s : ManagerState)
    (username email password : String)
    (hfail : (create_user s username email password).1.toOption = none) :
    (create_user s username email password).2.users = s.users ∧
    (usersMem s.users username = false →
      usersMem (create_user s username email password).2.users username = false) := by
  have husers : (create_user s username email password).2.users = s.users := by
    unfold create_user at hfail ⊢
    by_cases he : is_valid_email email
    · by_cases hp : is_valid_password password
      · by_cases hm : usersMem s.users username
        · simp [he, hp, hm, log]
        · simp [he, hp, hm, Except.toOption] at hfail
      · simp [he, hp, log]
    · simp [he, log]
  exact ⟨husers, fun hm => husers ▸ hm⟩

/-- Witness for C3 at a concrete failing input (`"not-an-email"` is
rejected by the email validator). -/
theorem create_failure_no_mutation_witness :
    (create_user initState "bob" "not-an-email" "Secret123").1.toOption = none ∧
    (create_user initState "bob" "not-an-email" "Secret123").2.users = initState.users := by
  refine ⟨by decide, ?_⟩
  exact (create_failure_no_mutation initState "bob" "not-an-email" "Secret123"
    (by decide)).1

/-! ### C6 -/

/-- C6: for a fresh identifier, a valid email and a valid password,
`create_user` succeeds and a subsequent `get_user` returns a record whose
`email` equals the given email and whose `is_active` flag is `True`. -/
theorem create_then_get (s : ManagerState) (username email password : String)
    (hfresh : usersMem s.users username = false)
    (he : is_valid_email email = true) (hp : is_valid_password password = true) :
    (create_user s username email password).1.toOption.isSome = true ∧
    ∃ d, (get_user (create_user s username email password).2 username).1 = some d ∧
      dictGet d "email" = some (.str email) ∧
      dictGet d "is_active" = some (.bool true) := by
  have husers := create_user_users s username email password he hp hfresh
  constructor
  · simp [create_user, he, hp, hfresh, Except.toOption]
  · refine ⟨[("username", .str username), ("email", .str email),
      ("password", .str (encrypt_password password)),
      ("created_at", .str (toString s.now)), ("is_active", .bool true)], ?_, ?_, ?_⟩
    · have hget : usersGet (create_user s username email password).2.users username =
          some [("username", .str username), ("email", .str email),
            ("password", .str (encrypt_password password)),
            ("created_at", .str (toString s.now)), ("is_active", .bool true)] := by
        rw [husers]
        exact alistGet_alistSet_self _ _ _
      have hmem : usersMem (create_user s username email password).2.users username = true := by
        rw [husers]
        exact alistHas_alistSet_self _ _ _
      simp [get_user, hmem, hget]
    · simp [dictGet, alistGet]
    · simp [dictGet, alistGet]

/-- Witness for C6 at a concrete input. -/
theorem create_then_get_witness :
    usersMem initState.users "alice" = false ∧
    is_valid_email "alice@example.com" = true ∧
    is_valid_password "Secret123" = true ∧
    (create_user initState "alice" "alice@example.com" "Secret123").1.toOption.isSome = true := by
  refine ⟨by decide, by decide, by decide, ?_⟩
  exact (create_then_get initState "alice" "alice@example.com" "Secret123"
    (by decide) (by decide) (by decide)).1

/-! ### C7 -/

/-- `delete_user` on an absent identifier raises `"User not found"`. -/
theorem delete_user_not_found {s : ManagerState} {u : String}
    (h : usersMem s.users u = false) :
    (delete_user s u).1 = .error "User not found" := by
  simp [delete_user, h]

/-- C7: deleting a present identifier returns `True`, a following `get`
on that identifier returns `None`, a following `delete` fails with
`"User not found"`, and `True` is the only non-exceptional return value
of `delete_user` in any state. -/
theorem delete_removes (s : ManagerState) (username : String)
    (hmem : usersMem s.users username = true) :
    (delete_user s username).1 = .ok true ∧
    (get_user (delete_user s username).2 username).1 = none ∧
    (delete_user (delete_user s username).2 username).1 = .error "User not found" ∧
    (∀ s2 u2 b, (delete_user s2 u2).1 = Except.ok b → b = true) := by
  have husers : (delete_user s username).2.users = usersDel s.users username := by
    simp [delete_user, hmem, send_goodbye_email, log]
  have hgone : usersMem (delete_user s username).2.users username = false := by
    rw [husers]
    exact alistHas_alistDel_self _ _
  refine ⟨by simp [delete_user, hmem], ?_, ?_, ?_⟩
  · simp [get_user, hgone]
  · exact delete_user_not_found hgone
  · intro s2 u2 b hok
    by_cases hm2 : usersMem s2.users u2
    · simp [delete_user, hm2] at hok
      exact hok
    · simp [delete_user, hm2] at hok

/-- Witness for C7 at a concrete input. -/
theorem delete_removes_witness :
    usersMem (create_user initState "alice" "alice@example.com" "Secret123").2.users "alice" = true ∧
    (delete_user (create_user initState "alice" "alice@example.com" "Secret123").2 "alice").1 = .ok true := by
  refine ⟨by decide, ?_⟩
  exact (delete_removes (create_user initState "alice" "alice@example.com" "Secret123").2
    "alice" (by decide)).1

/-! ### C9 -/

/-- Any subject of the form `c ++ "@" ++ rest` with `c ≠ '@'` fails the
whole pattern: the literal `@` must align with the subject's first `@`
(no character class of the pattern contains `@`), so the local part of a
match would be the single character `c`, while
`[a-zA-Z0-9][a-zA-Z0-9._+%-]*[a-zA-Z0-9]` needs at least two characters. -/
theorem regexFullMatch_single_local (c : Char) (rest : List Char)
    (hc : ¬(c = '@')) : regexFullMatch (c :: '@' :: rest) = false := by
  have hdec : (decide (c = '@')) = false := decide_eq_false hc
  unfold regexFullMatch
  rw [List.dropWhile_cons, List.takeWhile_cons]
  simp only [hdec, Bool.not_false, if_true]
  rw [List.dropWhile_cons, List.takeWhile_cons]
  simp [matchLocal, matchLocalTail]

/-- C9: the email validator rejects every address whose local part is a
single alphanumeric character, whatever the (well-formed) domain is:
the pattern requires at least two characters before the `@`. -/
theorem single_char_local_part_rejected (c : Char) (d : List Char)
    (hc : isAlnumChar c = true) (hd : matchDomain d = true) :
    is_valid_email (String.mk (c :: '@' :: d)) = false := by
  have hcne : ¬(c = '@') := by
    intro h
    rw [h] at hc
    exact absurd hc (by decide)
  show is_valid_email ⟨c :: '@' :: d⟩ = false
  unfold is_valid_email
  by_cases hdd : hasDoubleDot (String.mk (c :: '@' :: d)).data
  · simp [hdd]
  · simp only [hdd, if_false]
    unfold reMatchEmailPattern
    rw [regexFullMatch_single_local c d hcne]
    cases d with
    | nil => simp
    | cons d0 drest =>
      have hdrop : (c :: '@' :: d0 :: drest).dropLast =
          c :: '@' :: (d0 :: drest).dropLast := rfl
      rw [hdrop, regexFullMatch_single_local c ((d0 :: drest).dropLast) hcne]
      simp

/-- Witness for C9 at `"a@example.com"`. -/
theorem single_char_local_part_rejected_witness :
    isAlnumChar 'a' = true ∧ matchDomain "example.com".data = true ∧
    is_valid_email (String.mk ('a' :: '@' :: "example.com".data)) = false := by
  refine ⟨by decide, by decide, ?_⟩
  exact single_char_local_part_rejected 'a' "example.com".data (by decide) (by decide)

/-! ### C5 -/

/-- Characters that can occur in a lowercase hex digest: `[0-9a-f]`. -/
def isLowerHexChar (c : Char) : Bool :=
  (48 ≤ c.toNat && c.toNat ≤ 57) || (97 ≤ c.toNat && c.toNat ≤ 102)

theorem hexDigitChar_mod16_lowerHex (n : Nat) :
    isLowerHexChar (hexDigitChar (n % 16)) = true := by
  have h : n % 16 < 16 := Nat.mod_lt _ (by norm_num)
  set k := n % 16 with hk
  interval_cases k <;> decide

theorem wordHex_length (w : Nat) : (wordHex w).length = 8 := by
  simp [wordHex]

theorem wordHex_all_lowerHex (w : Nat) :
    (wordHex w).all isLowerHexChar = true := by
  simp [wordHex, List.all_cons, hexDigitChar_mod16_lowerHex]

theorem hexOfHash_length (d : Hash8) : (hexOfHash d).length = 64 := by
  simp [hexOfHash, wordHex]

theorem hexOfHash_all_lowerHex (d : Hash8) :
    (hexOfHash d).all isLowerHexChar = true := by
  simp [hexOfHash, List.all_append, wordHex_all_lowerHex]

/-- C5: for every secret accepted by the password validator, the digest is
deterministic (it is a pure function: equal inputs give equal outputs),
differs from the plaintext, and is a 64-character lowercase-hex string. -/
theorem digest_deterministic_hex64_not_plaintext (s : String)
    (hpw : is_valid_password s = true) :
    encrypt_password s = encrypt_password s ∧
    ¬(encrypt_password s = s) ∧
    (encrypt_password s).length = 64 ∧
    (encrypt_password s).data.all isLowerHexChar = true := by
  have hhex : (encrypt_password s).data.all isLowerHexChar = true :=
    hexOfHash_all_lowerHex (sha256run (utf8Bytes s))
  refine ⟨rfl, ?_, ?_, hhex⟩
  · intro heq
    unfold is_valid_password at hpw
    have hupper : s.data.any isUpperChar = true := by
      simp only [Bool.and_eq_true] at hpw
      exact hpw.1.1.2
    obtain ⟨c, hcmem, hcup⟩ := List.any_eq_true.mp hupper
    have hcdig : c ∈ (encrypt_password s).data := by
      rw [heq]
      exact hcmem
    have hchex := List.all_eq_true.mp hhex c hcdig
    simp only [isUpperChar, Bool.and_eq_true, decide_eq_true_eq] at hcup
    simp only [isLowerHexChar, Bool.or_eq_true, Bool.and_eq_true,
      decide_eq_true_eq] at hchex
    omega
  · exact hexOfHash_length (sha256run (utf8Bytes s))

/-- Witness for C5 at `"Secret123"`. -/
theorem digest_deterministic_hex64_not_plaintext_witness :
    is_valid_password "Secret123" = true ∧
    (encrypt_password "Secret123").length = 64 := by
  refine ⟨by decide, ?_⟩
  exact (digest_deterministic_hex64_not_plaintext "Secret123" (by decide)).2.2.1

/-! ### C10 -/

/-- C10: updating a present identifier with an empty change set succeeds:
no exception, exactly one success audit entry, the users dict (hence the
stored record) unchanged, and the unchanged record returned. -/
theorem update_empty_kwargs (s : ManagerState) (username : String)
    (hmem : usersMem s.users username = true)
    (hnd : (s.users.map Prod.fst).Nodup) :
    ∃ old, usersGet s.users username = some old ∧
      (update_user s username []).1 = .ok old ∧
      (update_user s username []).2.users = s.users ∧
      (update_user s username []).2.log_entries =
        s.log_entries ++ [⟨s.now, "User " ++ username ++ " updated successfully"⟩] := by
  obtain ⟨old, hold⟩ := alistGet_exists_of_mem hmem
  have h1 : update_user s username [] = update_apply s username [] := by
    simp [update_user, update_password_step, hmem, alistGet]
  have hupdated : dictUpdate ((usersGet s.users username).getD []) ([] : PyDict) = old := by
    simp [alistUpdate, hold]
  refine ⟨old, hold, ?_, ?_, ?_⟩
  · rw [h1]
    simp [update_apply, hupdated]
  · rw [h1]
    simp [update_apply, hupdated, log, alistSet_eq_self hold hnd]
  · rw [h1]
    simp [update_apply, log]

/-- Witness for C10 after one concrete create. -/
theorem update_empty_kwargs_witness :
    usersMem (create_user initState "alice" "alice@example.com" "Secret123").2.users "alice" = true ∧
    ((create_user initState "alice" "alice@example.com" "Secret123").2.users.map Prod.fst).Nodup ∧
    (update_user (create_user initState "alice" "alice@example.com" "Secret123").2 "alice" []).2.users =
      (create_user initState "alice" "alice@example.com" "Secret123").2.users := by
  obtain ⟨old, _, _, h3, _⟩ :=
    update_empty_kwargs (create_user initState "alice" "alice@example.com" "Secret123").2
      "alice" (by decide) (by decide)
  exact ⟨by decide, by decide, h3⟩

/-! ### C2 -/

theorem alistKeys_alistSet_of_has {α : Type} (d : List (String × α))
    (k : String) (v : α) (h : alistHas d k = true) :
    (alistSet d k v).map Prod.fst = d.map Prod.fst := by
  unfold alistSet
  simp only [h, if_true]
  rw [List.map_map]
  apply List.map_congr_left
  intro p hp
  by_cases hpk : p.1 = k
  · simp [hpk]
  · simp [hpk]

/-- The `'password' in kwargs` block of `update_user` always ends in
`update_apply` on a kwargs dict whose non-password bindings are those of
`kwargs` and whose `password` binding (if any) has been replaced by the
digest. -/
theorem update_password_step_spec (s : ManagerState) (username : String)
    (kwargs : PyDict) (hnd : (kwargs.map Prod.fst).Nodup)
    (hpw : (match dictGet kwargs "password" with
            | some (.str p) => is_valid_password p
            | some (.bool _) => false
            | none => true) = true) :
    ∃ kwargs2, update_password_step s username kwargs = update_apply s username kwargs2 ∧
      (kwargs2.map Prod.fst).Nodup ∧
      (∀ k v, ¬(k = "password") → dictGet kwargs k = some v → dictGet kwargs2 k = some v) ∧
      (∀ p, dictGet kwargs "password" = some (.str p) →
        dictGet kwargs2 "password" = some (.str (encrypt_password p))) := by
  cases hgp : dictGet kwargs "password" with
  | none =>
    refine ⟨kwargs, ?_, hnd, fun _ _ _ h => h, ?_⟩
    · simp [update_password_step, hgp]
    · intro p hp
      exact Option.noConfusion hp
  | some v =>
    cases v with
    | str p =>
      have hvp : is_valid_password p = true := by
        rw [hgp] at hpw
        simpa using hpw
      have hhas : alistHas kwargs "password" = true := by
        rw [← alistGet_isSome]
        show (dictGet kwargs "password").isSome = true
        rw [hgp]
        rfl
      refine ⟨dictSet kwargs "password" (.str (encrypt_password p)), ?_, ?_, ?_, ?_⟩
      · simp [update_password_step, hgp, hvp]
      · show ((alistSet kwargs "password" (PyVal.str (encrypt_password p))).map Prod.fst).Nodup
        rw [alistKeys_alistSet_of_has kwargs "password" _ hhas]
        exact hnd
      · intro k v hk hkv
        show alistGet (alistSet kwargs "password" (PyVal.str (encrypt_password p))) k = some v
        rw [alistGet_alistSet_ne kwargs "password" _ k hk]
        exact hkv
      · intro p2 hp2
        simp only [Option.some.injEq, PyVal.str.injEq] at hp2
        subst hp2
        exact alistGet_alistSet_self kwargs "password" _
    | bool b =>
      rw [hgp] at hpw
      simp at hpw

/-- C2 fails on the code; the amended claim: for a present identifier and
kwargs whose `email` / `password` values (when present) are strings passing
their validators, `update_user` succeeds and merges EVERY supplied field
into the stored record — recognized or not, including `username` and
`created_at` — with the `password` value replaced by its digest; unknown
field names are added to the record without error. -/
theorem update_applies_all_supplied_fields (s : ManagerState) (username : String)
    (kwargs : PyDict) (hmem : usersMem s.users username = true)
    (hnd : (kwargs.map Prod.fst).Nodup)
    (hem : (match dictGet kwargs "email" with
            | some (.str e) => is_valid_email e
            | some (.bool _) => false
            | none => true) = true)
    (hpw : (match dictGet kwargs "password" with
            | some (.str p) => is_valid_password p
            | some (.bool _) => false
            | none => true) = true) :
    ∃ updated, (update_user s username kwargs).1 = .ok updated ∧
      (∀ k v, ¬(k = "password") → dictGet kwargs k = some v →
        dictGet updated k = some v) ∧
      (∀ p, dictGet kwargs "password" = some (.str p) →
        dictGet updated "password" = some (.str (encrypt_password p))) := by
  have hstep : update_user s username kwargs = update_password_step s username kwargs := by
    cases hge : dictGet kwargs "email" with
    | none => simp [update_user, hmem, hge]
    | some v =>
      cases v with
      | str e =>
        have hve : is_valid_email e = true := by
          rw [hge] at hem
          simpa using hem
        simp [update_user, hmem, hge, hve]
      | bool b =>
        rw [hge] at hem
        simp at hem
  obtain ⟨kwargs2, heq, hnd2, hpres, hpass⟩ :=
    update_password_step_spec s username kwargs hnd hpw
  refine ⟨dictUpdate ((usersGet s.users username).getD []) kwargs2, ?_, ?_, ?_⟩
  · rw [hstep, heq]
    rfl
  · intro k v hk hkv
    have h2 : alistGet kwargs2 k = some v := hpres k v hk hkv
    show alistGet (alistUpdate _ kwargs2) k = some v
    rw [alistGet_alistUpdate kwargs2 _ k hnd2, h2]
  · intro p hp
    have h3 : alistGet kwargs2 "password" = some (PyVal.str (encrypt_password p)) :=
      hpass p hp
    show alistGet (alistUpdate _ kwargs2) "password" = some (PyVal.str (encrypt_password p))
    rw [alistGet_alistUpdate kwargs2 _ "password" hnd2, h3]

/-- Witness for C2's amended theorem at a concrete input. -/
theorem update_applies_all_supplied_fields_witness :
    usersMem (create_user initState "alice" "alice@example.com" "Secret123").2.users "alice" = true ∧
    ((update_user (create_user initState "alice" "alice@example.com" "Secret123").2
      "alice" [("email", PyVal.str "a2@example.com")]).1.toOption.isSome = true) := by
  obtain ⟨updated, h1, _, _⟩ :=
    update_applies_all_supplied_fields
      (create_user initState "alice" "alice@example.com" "Secret123").2 "alice"
      [("email", PyVal.str "a2@example.com")] (by decide) (by decide) (by decide) (by decide)
  refine ⟨by decide, ?_⟩
  rw [h1]
  rfl

/-- Counterexample to C2 as stated: the unrecognized field name
`"nickname"` is NOT ignored — after the update the stored record contains
a brand-new `"nickname"` binding (and the call raised no error), whereas
the record had no such field before. -/
theorem update_unknown_field_added :
    ((update_user (create_user initState "alice" "alice@example.com" "Secret123").2
        "alice" [("nickname", PyVal.str "al")]).1.toOption.isSome = true) ∧
    dictGet ((usersGet (update_user (create_user initState "alice" "alice@example.com" "Secret123").2
        "alice" [("nickname", PyVal.str "al")]).2.users "alice").getD [])
        "nickname" = some (PyVal.str "al") ∧
    dictGet ((usersGet (create_user initState "alice" "alice@example.com" "Secret123").2.users
        "alice").getD []) "nickname" = none := by
  exact ⟨by decide, by decide, by decide⟩

/-! ### C4 -/

/-- Counterexample to C4 as stated: after a successful
`create("alice", ...)`, a second create for `"alice"` with the invalid
email `"bad"` does fail — but with `"Invalid email format"`, not
`"User already exists"`: the email and password checks run before the
existence check, so the error kind depends on the second call's
arguments. -/
theorem second_create_invalid_email_error :
    (create_user (create_user initState "alice" "alice@example.com" "Secret123").2
        "alice" "bad" "Other123").1 = Except.error "Invalid email format" ∧
    ¬(("Invalid email format" : String) = "User already exists") := by
  refine ⟨?_, by decide⟩
  rw [create_user_invalid_email _ "alice" "bad" "Other123" (by decide)]

/-- C4 amended: after a successful create (and no intervening delete), a
second create with the same identifier always fails, whatever its email
and secret; it fails with `"User already exists"` precisely when the
second call's email and secret pass their validators (otherwise the
validation error comes first). -/
theorem second_create_always_fails (s : ManagerState) (u e p e2 p2 : String)
    (hfirst : (create_user s u e p).1.toOption.isSome = true)
    (he2 : is_valid_email e2 = true) (hp2 : is_valid_password p2 = true) :
    (∀ e3 p3, (create_user (create_user s u e p).2 u e3 p3).1.toOption = none) ∧
    (create_user (create_user s u e p).2 u e2 p2).1 =
      Except.error "User already exists" := by
  have he : is_valid_email e = true := by
    by_contra hne
    simp only [Bool.not_eq_true] at hne
    simp [create_user, hne, Except.toOption] at hfirst
  have hp : is_valid_password p = true := by
    by_contra hnp
    simp only [Bool.not_eq_true] at hnp
    simp [create_user, he, hnp, Except.toOption] at hfirst
  have hm : usersMem s.users u = false := by
    by_contra hnm
    simp only [Bool.not_eq_false] at hnm
    simp [create_user, he, hp, hnm, Except.toOption] at hfirst
  have hmem2 : usersMem (create_user s u e p).2.users u = true := by
    rw [create_user_users s u e p he hp hm]
    exact alistHas_alistSet_self _ _ _
  constructor
  · intro e3 p3
    by_cases he3 : is_valid_email e3
    · by_cases hp3 : is_valid_password p3
      · rw [create_user_already_exists _ u e3 p3 he3 hp3 hmem2]
        rfl
      · simp only [Bool.not_eq_true] at hp3
        rw [create_user_weak_password _ u e3 p3 he3 hp3]
        rfl
    · simp only [Bool.not_eq_true] at he3
      rw [create_user_invalid_email _ u e3 p3 he3]
      rfl
  · rw [create_user_already_exists _ u e2 p2 he2 hp2 hmem2]

/-- Witness for C4's amended theorem at a concrete input. -/
theorem second_create_always_fails_witness :
    (create_user initState "alice" "alice@example.com" "Secret123").1.toOption.isSome = true ∧
    is_valid_email "other@example.com" = true ∧
    is_valid_password "Other123" = true ∧
    (create_user (create_user initState "alice" "alice@example.com" "Secret123").2
        "alice" "other@example.com" "Other123").1 =
      Except.error "User already exists" := by
  refine ⟨by decide, by decide, by decide, ?_⟩
  exact (second_create_always_fails initState "alice" "alice@example.com" "Secret123"
    "other@example.com" "Other123" (by decide) (by decide) (by decide)).2

/-! ### C1 -/

/-- Counterexample to C1 as stated: a successful `create_user` appends TWO
audit entries (the success entry and the simulated welcome-email entry),
not exactly one. -/
theorem create_success_appends_two_entries :
    (create_user initState "alice" "alice@example.com" "Secret123").2.log_entries.length =
      initState.log_entries.length + 2 ∧ ¬((2 : Nat) = 1) := by
  exact ⟨by decide, by decide⟩

/-- C1 amended: every well-typed public operation call appends exactly one
audit entry, EXCEPT a succeeding `create` and a succeeding `delete`, which
append exactly two (the operation entry plus the simulated notification
email entry). -/
theorem audit_entries_per_operation (s : ManagerState) (op : Op)
    (hwt : wellTypedOp op = true) :
    (applyOp s op).log_entries.length =
      s.log_entries.length + (if opNotifies s op = true then 2 else 1) := by
  cases op with
  | createOp u e p =>
    by_cases he : is_valid_email e
    · by_cases hp : is_valid_password p
      · by_cases hm : usersMem s.users u
        · simp [applyOp, create_user, opNotifies, he, hp, hm, log]
        · simp [applyOp, create_user, opNotifies, he, hp, hm,
            send_welcome_email, log]
      · simp [applyOp, create_user, opNotifies, he, hp, log]
    · simp [applyOp, create_user, opNotifies, he, log]
  | getOp u =>
    by_cases hm : usersMem s.users u
    · simp [applyOp, get_user, opNotifies, hm, log]
    · simp [applyOp, get_user, opNotifies, hm, log]
  | updateOp u kw =>
    by_cases hm : usersMem s.users u
    · cases hge : dictGet kw "email" with
      | none =>
        cases hgp : dictGet kw "password" with
        | none =>
          simp [applyOp, update_user, update_password_step, update_apply,
            opNotifies, hm, hge, hgp, log]
        | some v =>
          cases v with
          | str p =>
            by_cases hvp : is_valid_password p
            · simp [applyOp, update_user, update_password_step, update_apply,
                opNotifies, hm, hge, hgp, hvp, log]
            · simp [applyOp, update_user, update_password_step, update_apply,
                opNotifies, hm, hge, hgp, hvp, log]
          | bool b =>
            simp [wellTypedOp, hge, hgp] at hwt
      | some v =>
        cases v with
        | str e =>
          by_cases hve : is_valid_email e
          · cases hgp : dictGet kw "password" with
            | none =>
              simp [applyOp, update_user, update_password_step, update_apply,
                opNotifies, hm, hge, hgp, hve, log]
            | some v2 =>
              cases v2 with
              | str p =>
                by_cases hvp : is_valid_password p
                · simp [applyOp, update_user, update_password_step, update_apply,
                    opNotifies, hm, hge, hgp, hve, hvp, log]
                · simp [applyOp, update_user, update_password_step, update_apply,
                    opNotifies, hm, hge, hgp, hve, hvp, log]
              | bool b =>
                simp [wellTypedOp, hge, hgp] at hwt
          · simp [applyOp, update_user, opNotifies, hm, hge, hve, log]
        | bool b =>
          simp [wellTypedOp, hge] at hwt
    · simp [applyOp, update_user, opNotifies, hm, log]
  | deleteOp u =>
    by_cases hm : usersMem s.users u
    · simp [applyOp, delete_user, opNotifies, hm, send_goodbye_email, log]
    · simp [applyOp, delete_user, opNotifies, hm, log]
  | listOp =>
    simp [applyOp, list_users, opNotifies, log]

/-- Witness for C1's amended theorem at a concrete operation. -/
theorem audit_entries_per_operation_witness :
    wellTypedOp (Op.getOp "x") = true ∧
    (applyOp initState (Op.getOp "x")).log_entries.length =
      initState.log_entries.length +
        (if opNotifies initState (Op.getOp "x") = true then 2 else 1) := by
  refine ⟨by decide, ?_⟩
  exact audit_entries_per_operation initState (Op.getOp "x") (by decide)

/-! ### C8 -/

/-- Counterexample to C8 as stated: `get_logs` does not return a stable
snapshot.  After one (failed) `get` the log has one entry; reading the
list object `get_logs` returned, AFTER a second operation has run, shows
two entries — the append mutated the already-returned object. -/
theorem returned_log_list_mutates :
    (readLogList (get_logs ((get_user initState "x").2))
        ((get_user ((get_user initState "x").2) "y").2)).length = 2 ∧
    (readLogList (get_logs ((get_user initState "x").2))
        ((get_user initState "x").2)).length = 1 ∧
    ¬((2 : Nat) = 1) := by
  exact ⟨by decide, by decide, by decide⟩

/-- C8 amended: the value `get_logs` returns is the live log list itself:
observed after any later operation it equals the manager's then-current
full history; the log is append-only, so the entries present when the
reference was handed out remain an unchanged prefix. -/
theorem returned_log_reflects_current_history (s : ManagerState) (op : Op) :
    readLogList (get_logs s) (applyOp s op) = (applyOp s op).log_entries ∧
    s.log_entries <+: (applyOp s op).log_entries := by
  refine ⟨rfl, ?_⟩
  cases op with
  | createOp u e p =>
    by_cases he : is_valid_email e
    · by_cases hp : is_valid_password p
      · by_cases hm : usersMem s.users u
        · simp [applyOp, create_user, he, hp, hm, log, List.prefix_append]
        · simp [applyOp, create_user, he, hp, hm, send_welcome_email, log,
            List.prefix_append]
      · simp [applyOp, create_user, he, hp, log, List.prefix_append]
    · simp [applyOp, create_user, he, log, List.prefix_append]
  | getOp u =>
    by_cases hm : usersMem s.users u
    · simp [applyOp, get_user, hm, log, List.prefix_append]
    · simp [applyOp, get_user, hm, log, List.prefix_append]
  | updateOp u kw =>
    by_cases hm : usersMem s.users u
    · cases hge : dictGet kw "email" with
      | none =>
        cases hgp : dictGet kw "password" with
        | none =>
          simp [applyOp, update_user, update_password_step, update_apply,
            hm, hge, hgp, log, List.prefix_append]
        | some v =>
          cases v with
          | str p =>
            by_cases hvp : is_valid_password p
            · simp [applyOp, update_user, update_password_step, update_apply,
                hm, hge, hgp, hvp, log, List.prefix_append]
            · simp [applyOp, update_user, update_password_step, update_apply,
                hm, hge, hgp, hvp, log, List.prefix_append]
          | bool b =>
            simp [applyOp, update_user, update_password_step, hm, hge, hgp]
      | some v =>
        cases v with
        | str e =>
          by_cases hve : is_valid_email e
          · cases hgp : dictGet kw "password" with
            | none =>
              simp [applyOp, update_user, update_password_step, update_apply,
                hm, hge, hgp, hve, log, List.prefix_append]
            | some v2 =>
              cases v2 with
              | str p =>
                by_cases hvp : is_valid_password p
                · simp [applyOp, update_user, update_password_step, update_apply,
                    hm, hge, hgp, hve, hvp, log, List.prefix_append]
                · simp [applyOp, update_user, update_password_step, update_apply,
                    hm, hge, hgp, hve, hvp, log, List.prefix_append]
              | bool b =>
                simp [applyOp, update_user, update_password_step, hm, hge, hgp, hve]
          · simp [applyOp, update_user, hm, hge, hve, log, List.prefix_append]
        | bool b =>
          simp [applyOp, update_user, hm, hge]
    · simp [applyOp, update_user, hm, log, List.prefix_append]
  | deleteOp u =>
    by_cases hm : usersMem s.users u
    · simp [applyOp, delete_user, hm, send_goodbye_email, log, List.prefix_append]
    · simp [applyOp, delete_user, hm, log, List.prefix_append]
  | listOp =>
    simp [applyOp, list_users, log, List.prefix_append]

end SolidSRP
